import Mathlib

/-!
Verification of the ordinal numeral formatter (`modules/numbers.js`):
the digit-suffix formatter `ordinal` and the word-based ordinal formatter
`wordinal`, embedded shallowly.  JavaScript `%` on integers is truncated
remainder, embedded as `Int.tmod`; out-of-bounds array reads yield
`undefined`, embedded as checked list indexing.  `Math.log10` is the
IEEE-754 double-precision logarithm: correctly rounded (fdlibm, as in V8
and SpiderMonkey), its floor agrees with the exact floor base-10
logarithm everywhere on `[1, 2^53 - 1]` except at `999999999999998` and
`999999999999999`, whose true logarithm `15 - 4.34e-16` lies within half
an ulp of `15` and rounds up to exactly `15.0`; `magJS` embeds this.  At
those two values the source computes a leading "group" of `0` and
recurses on the unchanged argument, so the recursion diverges (a stack
overflow); the recursive functions are therefore embedded with an
explicit fuel argument and a three-valued result that distinguishes a
completed string, an out-of-range table read, and fuel exhaustion
(the stack overflow).
-/

/-- JavaScript array indexing with an `Int` index: `a[i]` is `undefined`
(here `none`) whenever `i` is negative or at least the length. -/
def jsIndex (l : List String) (i : Int) : Option String :=
  if 0 ≤ i ∧ i.toNat < l.length then l[i.toNat]? else none

/-- The suffix table of `ordinal`: `['th', 'st', 'nd', 'rd']`. -/
def suffixes : List String := ["th", "st", "nd", "rd"]

/-- `ordinal(n)` from the source: `n + (suffixes[(v - 20) % 10] ?? suffixes[v]
?? suffixes[0])` with `v = n % 100`.  The `??` fallback chain is embedded with
`Option.getD`; the innermost default is unreachable since `suffixes[0]`
always exists. -/
def ordinal (n : Int) : String :=
  let v := n.tmod 100
  toString n ++
    ((jsIndex suffixes ((v - 20).tmod 10)).getD
      ((jsIndex suffixes v).getD ((jsIndex suffixes 0).getD "undefined")))

/-- The cardinal units table `nums` of `wordinal` (words for 0–19). -/
def nums : List String :=
  ["zero", "one", "two", "three", "four", "five", "six", "seven", "eight",
   "nine", "ten", "eleven", "twelve", "thirteen", "fourteen", "fifteen",
   "sixteen", "seventeen", "eighteen", "nineteen"]

/-- The ordinal units table `ones` of `wordinal` (words for 0–19). -/
def ones : List String :=
  ["zeroth", "first", "second", "third", "fourth", "fifth", "sixth",
   "seventh", "eighth", "ninth", "tenth", "eleventh", "twelfth",
   "thirteenth", "fourteenth", "fifteenth", "sixteenth", "seventeenth",
   "eighteenth", "nineteenth"]

/-- The tens-stem table `tens` of `wordinal` (stems for tens digits 2–9). -/
def tens : List String :=
  ["twent", "thirt", "fort", "fift", "sixt", "sevent", "eight", "ninet"]

/-- The group-name table `groups` of `wordinal`. -/
def groups : List String :=
  ["hundred", "thousand", "million", "billion", "trillion", "quadrillion"]

/-- `Number.MAX_SAFE_INTEGER = 2^53 - 1`. -/
def MAX_SAFE_INTEGER : Nat := 9007199254740991

/-- Fueled floor-logarithm base 10: with fuel at least `n`, `log10F fuel n`
is `Math.floor(Math.log10(n))` for `n ≥ 1` (the source only uses it there). -/
def log10F : Nat → Nat → Nat
  | 0, _ => 0
  | fuel + 1, n => if n < 10 then 0 else log10F fuel (n / 10) + 1

/-- The exact floor base-10 logarithm (for `n ≥ 1`); `Math.floor(Math.log10
n)` agrees with it except where double rounding strikes, see `magJS`. -/
def mag (n : Nat) : Nat := log10F n n

/-- `mag = Math.floor(Math.log10(n))` from the source, with IEEE-754
double-precision semantics: the correctly-rounded double `log10` floors to
the exact floor logarithm on all of `[1, 2^53 - 1]` except at
`999999999999998` and `999999999999999` (that is, `10^15 - 2` and
`10^15 - 1`), where `log10` returns exactly `15.0` and the floor is `15`
instead of `14`. -/
def magJS (n : Nat) : Nat :=
  if n = 999999999999998 ∨ n = 999999999999999 then 15 else mag n

/-- Fueled embedding of the inner recursive closure `mult` of `wordinal`,
which renders the leading group: `nums[num]` below 20, tens stems with `y`
below 100, and `<unit> hundred` with a recursive sub-hundred remainder
otherwise — except that a zero remainder appends `'th'` (source line 79). -/
def multF : Nat → Nat → Option String
  | 0, _ => none
  | fuel + 1, num =>
    if num < 20 then nums[num]? else
    let rem := num % 10
    if num < 100 then
      (tens[num / 10 - 2]?).bind fun t =>
        if rem = 0 then some (t ++ "y")
        else (nums[rem]?).map fun u => t ++ "y" ++ ("-" ++ u)
    else
      let x := num - num / 100 * 100
      (nums[num / 100]?).bind fun c =>
        (groups[0]?).bind fun h =>
          if x = 0 then some (c ++ " " ++ h ++ "th")
          else (multF fuel x).map fun r => c ++ " " ++ h ++ (" " ++ r)

/-- The inner closure `mult` applied with enough fuel (`num` bounds the
recursion depth, since each recursive call strictly decreases). -/
def mult (num : Nat) : Option String := multF (num + 1) num

/-- The outcome of evaluating `wordinal`'s body under a bounded call
stack: a completed string, an out-of-range table read (`undefined`), or
an exhausted stack. -/
inductive EvalResult where
  | ok (s : String)
  | badIndex
  | noFuel
deriving DecidableEq

/-- Applies a string-building continuation to a completed result and
propagates either failure unchanged. -/
def EvalResult.mapStr (f : String → String) : EvalResult → EvalResult
  | .ok s => .ok (f s)
  | .badIndex => .badIndex
  | .noFuel => .noFuel

/-- Fueled embedding of the body of `wordinal` after its range guard:
ordinal units below 20, tens stems with `ieth`/`y-` at magnitude 1,
`<unit> hundred` at magnitude 2, and base-1000 group decomposition with
the leading group rendered by `mult` otherwise.  Magnitudes come from
`magJS` (double-precision `Math.log10`); each unit of fuel is one stack
frame, `.badIndex` records a table read outside its domain, and
`.noFuel` records call-stack exhaustion, which really happens: at
`999999999999999` the magnitude is 15, the leading group divides to `0`
and the recursion repeats the same argument forever. -/
def wordinalR : Nat → Nat → EvalResult
  | 0, _ => .noFuel
  | fuel + 1, n =>
    if n < 20 then
      match ones[n]? with
      | none => .badIndex
      | some s => .ok s
    else if magJS n = 1 then
      match tens[n / 10 - 2]? with
      | none => .badIndex
      | some t =>
        if n % 10 = 0 then .ok (t ++ "ieth")
        else
          match ones[n % 10]? with
          | none => .badIndex
          | some u => .ok (t ++ "y-" ++ u)
    else if magJS n = 2 then
      let f := n / 10 ^ magJS n
      let x := n - f * 10 ^ magJS n
      match nums[f]? with
      | none => .badIndex
      | some c =>
        match groups[0]? with
        | none => .badIndex
        | some h =>
          if x = 0 then .ok (c ++ " " ++ h ++ "th")
          else (wordinalR fuel x).mapStr fun r => c ++ " " ++ h ++ (" " ++ r)
    else
      let g := magJS n % 3 + 1
      let i := magJS n / 3
      let f := n / 10 ^ (magJS n - g + 1)
      let x := n - f * 10 ^ (magJS n - g + 1)
      match mult f with
      | none => .badIndex
      | some m =>
        match groups[i]? with
        | none => .badIndex
        | some gname =>
          if x = 0 then .ok (m ++ " " ++ gname ++ "th")
          else (wordinalR fuel x).mapStr fun r => m ++ " " ++ gname ++ (" " ++ r)

/-- `wordinal(n)` from the source.  The range guard throws (here
`.error`) exactly when `n < 0 || n > Number.MAX_SAFE_INTEGER`; inside
the range the body runs with a finite stack budget — a table read
outside its domain (impossible, as proved below) would surface as the
second `.error`, and exhaustion of the stack (which happens at the two
inputs where double `log10` rounds up, and at the inputs whose trailing
groups reach them) surfaces as the engine's stack-overflow error. -/
def wordinal (n : Int) : Except String String :=
  if n < 0 ∨ (MAX_SAFE_INTEGER : Int) < n then
    .error ("Argument must be between 0 and " ++ toString MAX_SAFE_INTEGER)
  else
    match wordinalR (n.toNat + 1) n.toNat with
    | .ok s => .ok s
    | .badIndex => .error "table index out of range"
    | .noFuel => .error "Maximum call stack size exceeded"

example : ordinal 1 = "1st" := by decide
example : ordinal 11 = "11th" := by decide
example : ordinal 121 = "121st" := by decide
example : ordinal (-21) = "-21th" := by decide
example : wordinal 0 = .ok "zeroth" := rfl
example : wordinal 21 = .ok "twenty-first" := rfl
example : wordinal 102 = .ok "one hundred second" := rfl
example : wordinal 1100 = .ok "one thousand one hundredth" := rfl
example : wordinal 2160000 = .ok "two million one hundred sixty thousandth" := rfl
example : wordinal 32010002400 =
    .ok "thirty-two billion ten million two thousand four hundredth" := rfl
example : wordinal 9007199254740991 =
    .ok ("nine quadrillion seven trillion one hundred ninety-nine billion "
      ++ "two hundred fifty-four million seven hundred forty thousand "
      ++ "nine hundred ninety-first") := rfl
example : wordinal 500000 = .ok "five hundredth thousandth" := rfl
example : wordinal (-1) = .error "Argument must be between 0 and 9007199254740991" := rfl

/-! ### Characterization of the fueled base-10 logarithm -/

theorem log10F_of_lt {fuel n : Nat} (h : n < 10) : log10F fuel n = 0 := by
  cases fuel with
  | zero => rfl
  | succ f => simp [log10F, h]

theorem log10F_fuel_eq (n : Nat) : ∀ f1 f2, n ≤ f1 → n ≤ f2 →
    log10F f1 n = log10F f2 n := by
  induction n using Nat.strong_induction_on with
  | _ n ih =>
    intro f1 f2 h1 h2
    by_cases h10 : n < 10
    · rw [log10F_of_lt h10, log10F_of_lt h10]
    · obtain ⟨a, rfl⟩ : ∃ a, f1 = a + 1 := ⟨f1 - 1, by omega⟩
      obtain ⟨b, rfl⟩ : ∃ b, f2 = b + 1 := ⟨f2 - 1, by omega⟩
      have hd : n / 10 < n := Nat.div_lt_self (by omega) (by omega)
      simp only [log10F, if_neg h10]
      rw [ih (n / 10) hd a b (by omega) (by omega)]

theorem pow_log10F_le (n : Nat) : 1 ≤ n → ∀ fuel, n ≤ fuel →
    10 ^ log10F fuel n ≤ n := by
  induction n using Nat.strong_induction_on with
  | _ n ih =>
    intro hn fuel hf
    by_cases h10 : n < 10
    · rw [log10F_of_lt h10]; simpa using hn
    · obtain ⟨a, rfl⟩ : ∃ a, fuel = a + 1 := ⟨fuel - 1, by omega⟩
      simp only [log10F, if_neg h10]
      have hd : n / 10 < n := Nat.div_lt_self (by omega) (by omega)
      have h1 : 1 ≤ n / 10 := (Nat.one_le_div_iff (by omega)).mpr (by omega)
      have hrec := ih (n / 10) hd h1 a (by omega)
      calc 10 ^ (log10F a (n / 10) + 1)
          = 10 ^ log10F a (n / 10) * 10 := by rw [Nat.pow_succ]
        _ ≤ n / 10 * 10 := Nat.mul_le_mul_right 10 hrec
        _ ≤ n := Nat.div_mul_le_self n 10

theorem lt_pow_log10F (n : Nat) : ∀ fuel, n ≤ fuel →
    n < 10 ^ (log10F fuel n + 1) := by
  induction n using Nat.strong_induction_on with
  | _ n ih =>
    intro fuel hf
    by_cases h10 : n < 10
    · rw [log10F_of_lt h10]; simpa using h10
    · obtain ⟨a, rfl⟩ : ∃ a, fuel = a + 1 := ⟨fuel - 1, by omega⟩
      simp only [log10F, if_neg h10]
      have hd : n / 10 < n := Nat.div_lt_self (by omega) (by omega)
      have hrec := ih (n / 10) hd a (by omega)
      have hstep : n < (n / 10 + 1) * 10 := by omega
      calc n < (n / 10 + 1) * 10 := hstep
        _ ≤ 10 ^ (log10F a (n / 10) + 1) * 10 := Nat.mul_le_mul_right 10 hrec
        _ = 10 ^ (log10F a (n / 10) + 1 + 1) := (Nat.pow_succ 10 _).symm

theorem pow_mag_le {n : Nat} (hn : 1 ≤ n) : 10 ^ mag n ≤ n :=
  pow_log10F_le n hn n le_rfl

theorem lt_pow_mag (n : Nat) : n < 10 ^ (mag n + 1) :=
  lt_pow_log10F n n le_rfl

theorem le_mag {k n : Nat} (h : 10 ^ k ≤ n) : k ≤ mag n := by
  by_contra hc
  have h1 : mag n + 1 ≤ k := by omega
  have h2 : 10 ^ (mag n + 1) ≤ 10 ^ k := Nat.pow_le_pow_right (by omega) h1
  have := lt_pow_mag n
  omega

theorem mag_le {k n : Nat} (h : n < 10 ^ (k + 1)) : mag n ≤ k := by
  rcases Nat.eq_zero_or_pos n with rfl | hn
  · simp [mag, log10F]
  · by_contra hc
    have h1 : k + 1 ≤ mag n := by omega
    have h2 : 10 ^ (k + 1) ≤ 10 ^ mag n := Nat.pow_le_pow_right (by omega) h1
    have := pow_mag_le hn
    omega

theorem mag_eq {k n : Nat} (h1 : 10 ^ k ≤ n) (h2 : n < 10 ^ (k + 1)) :
    mag n = k :=
  Nat.le_antisymm (mag_le h2) (le_mag h1)

theorem magJS_eq_mag {n : Nat} (h1 : n ≠ 999999999999998)
    (h2 : n ≠ 999999999999999) : magJS n = mag n := by
  simp [magJS, h1, h2]

/-! ### Fuel irrelevance for `mult`: every recursive call of the inner
cardinal renderer strictly decreases the argument, so any fuel exceeding
the argument computes the same result -/

theorem multF_fuel_eq (num : Nat) : ∀ f1 f2, num < f1 → num < f2 →
    multF f1 num = multF f2 num := by
  induction num using Nat.strong_induction_on with
  | _ num ih =>
    intro f1 f2 h1 h2
    obtain ⟨a, rfl⟩ : ∃ a, f1 = a + 1 := ⟨f1 - 1, by omega⟩
    obtain ⟨b, rfl⟩ : ∃ b, f2 = b + 1 := ⟨f2 - 1, by omega⟩
    by_cases h20 : num < 20
    · simp [multF, h20]
    · by_cases h100 : num < 100
      · simp [multF, h20, h100]
      · have hq : 1 ≤ num / 100 := (Nat.one_le_div_iff (by omega)).mpr (by omega)
        have hx : num - num / 100 * 100 < num := by omega
        simp only [multF, if_neg h20, if_neg h100]
        rw [ih _ hx a b (by omega) (by omega)]

/-! ### One-step unfolding lemmas -/

theorem mult_of_lt20 {num : Nat} (h : num < 20) : mult num = nums[num]? := by
  simp [mult, multF, h]

theorem mult_of_lt100 {num : Nat} (h20 : ¬ num < 20) (h100 : num < 100) :
    mult num = (tens[num / 10 - 2]?).bind fun t =>
      if num % 10 = 0 then some (t ++ "y")
      else (nums[num % 10]?).map fun u => t ++ "y" ++ ("-" ++ u) := by
  simp [mult, multF, h20, h100]

theorem mult_of_ge100 {num : Nat} (h100 : ¬ num < 100) :
    mult num = (nums[num / 100]?).bind fun c =>
      (groups[0]?).bind fun h =>
        if num - num / 100 * 100 = 0 then some (c ++ " " ++ h ++ "th")
        else (mult (num - num / 100 * 100)).map fun r =>
          c ++ " " ++ h ++ (" " ++ r) := by
  have h20 : ¬ num < 20 := by omega
  have hq : 1 ≤ num / 100 := (Nat.one_le_div_iff (by omega)).mpr (by omega)
  have hx : num - num / 100 * 100 < num := by omega
  rw [show mult num = multF (num + 1) num from rfl, multF]
  simp only [if_neg h20, if_neg h100]
  rw [multF_fuel_eq _ num _ hx (Nat.lt_succ_self _)]
  rfl

/-! ### Totality: every table lookup stays inside its table -/

theorem mult_isSome (num : Nat) : num < 2000 → (mult num).isSome := by
  induction num using Nat.strong_induction_on with
  | _ num ih =>
    intro hnum
    by_cases h20 : num < 20
    · rw [mult_of_lt20 h20]
      have hl : num < nums.length := by simp only [nums, List.length]; omega
      simp [List.getElem?_eq_getElem hl]
    · by_cases h100 : num < 100
      · rw [mult_of_lt100 h20 h100]
        have ht : num / 10 - 2 < tens.length := by
          simp only [tens, List.length]; omega
        rw [List.getElem?_eq_getElem ht]
        by_cases hr : num % 10 = 0
        · simp [hr]
        · have hu : num % 10 < nums.length := by
            simp only [nums, List.length]; omega
          simp [hr, List.getElem?_eq_getElem hu]
      · rw [mult_of_ge100 h100]
        have hc : num / 100 < nums.length := by
          simp only [nums, List.length]; omega
        rw [List.getElem?_eq_getElem hc]
        have hg : groups[0]? = some "hundred" := rfl
        rw [hg]
        by_cases hx : num - num / 100 * 100 = 0
        · simp [hx]
        · have hq : 1 ≤ num / 100 := (Nat.one_le_div_iff (by omega)).mpr (by omega)
          have hlt : num - num / 100 * 100 < num := by omega
          have hrec := ih _ hlt (by omega)
          simp [hx, hrec]

theorem MAX_eq : MAX_SAFE_INTEGER = 9007199254740991 := rfl

theorem mapStr_ne_badIndex {e : EvalResult} (f : String → String)
    (h : e ≠ .badIndex) : e.mapStr f ≠ .badIndex := by
  cases e with
  | ok s => simp [EvalResult.mapStr]
  | badIndex => exact absurd rfl h
  | noFuel => simp [EvalResult.mapStr]

/-- No table read ever leaves its table, whatever the stack budget: the
evaluation of `wordinal`'s body never reports `.badIndex` for any input
up to `Number.MAX_SAFE_INTEGER` — even on the diverging inputs, every
lookup actually performed is in range. -/
theorem wordinalR_ne_badIndex : ∀ fuel n, n ≤ MAX_SAFE_INTEGER →
    wordinalR fuel n ≠ .badIndex := by
  intro fuel
  induction fuel with
  | zero =>
    intro n hn
    simp [wordinalR]
  | succ fuel ih =>
    intro n hn
    by_cases hbad : n = 999999999999998 ∨ n = 999999999999999
    · rcases hbad with rfl | rfl
      · rw [show wordinalR (fuel + 1) 999999999999998 =
            (wordinalR fuel 999999999999998).mapStr
              (fun r => "zero" ++ " " ++ "quadrillion" ++ (" " ++ r)) from rfl]
        exact mapStr_ne_badIndex _ (ih _ hn)
      · rw [show wordinalR (fuel + 1) 999999999999999 =
            (wordinalR fuel 999999999999999).mapStr
              (fun r => "zero" ++ " " ++ "quadrillion" ++ (" " ++ r)) from rfl]
        exact mapStr_ne_badIndex _ (ih _ hn)
    · push_neg at hbad
      have hmeq : magJS n = mag n := magJS_eq_mag hbad.1 hbad.2
      by_cases h20 : n < 20
      · rw [wordinalR]
        simp only [if_pos h20]
        have hl : n < ones.length := by simp only [ones, List.length]; omega
        simp [List.getElem?_eq_getElem hl]
      · by_cases hm1 : mag n = 1
        · have h100 : n < 100 := by
            have := lt_pow_mag n; rw [hm1] at this; omega
          rw [wordinalR]
          simp only [if_neg h20, hmeq, if_pos hm1]
          have ht : n / 10 - 2 < tens.length := by
            simp only [tens, List.length]; omega
          rw [List.getElem?_eq_getElem ht]
          by_cases hr : n % 10 = 0
          · simp [hr]
          · have hu : n % 10 < ones.length := by
              simp only [ones, List.length]; omega
            simp [hr, List.getElem?_eq_getElem hu]
        · by_cases hm2 : mag n = 2
          · have h100 : 100 ≤ n := by
              have := pow_mag_le (n := n) (by omega); rw [hm2] at this; omega
            have h1000 : n < 1000 := by
              have := lt_pow_mag n; rw [hm2] at this; omega
            rw [wordinalR]
            simp only [if_neg h20, hmeq, if_neg hm1, if_pos hm2, hm2,
              show (10 : Nat) ^ 2 = 100 from by norm_num]
            have hc : n / 100 < nums.length := by
              simp only [nums, List.length]; omega
            rw [List.getElem?_eq_getElem hc,
              show groups[0]? = some "hundred" from rfl]
            by_cases hx : n - n / 100 * 100 = 0
            · simp [hx]
            · simp only [if_neg hx]
              exact mapStr_ne_badIndex _ (ih _ (by omega))
          · have hm3 : 3 ≤ mag n := by
              have h1 : 1 ≤ mag n := le_mag (by omega : 10 ^ 1 ≤ n)
              omega
            have hle15 : mag n ≤ 15 := mag_le (by
              calc n ≤ MAX_SAFE_INTEGER := hn
                _ < 10 ^ 16 := by norm_num [MAX_SAFE_INTEGER])
            have he : mag n - (mag n % 3 + 1) + 1 = mag n - mag n % 3 := by
              omega
            rw [wordinalR]
            simp only [if_neg h20, hmeq, if_neg hm1, if_neg hm2, he]
            set e := mag n - mag n % 3 with hedef
            have hple : 10 ^ e ≤ n := by
              calc 10 ^ e ≤ 10 ^ mag n :=
                    Nat.pow_le_pow_right (by omega) (by omega)
                _ ≤ n := pow_mag_le (by omega)
            have hp : 0 < 10 ^ e := Nat.pos_pow_of_pos _ (by omega)
            have hf1000 : n / 10 ^ e < 1000 := by
              have hlt : n < 1000 * 10 ^ e := by
                calc n < 10 ^ (mag n + 1) := lt_pow_mag n
                  _ ≤ 1000 * 10 ^ e := by
                      rw [show (1000 : Nat) = 10 ^ 3 by norm_num, ← Nat.pow_add]
                      exact Nat.pow_le_pow_right (by omega) (by omega)
              exact (Nat.div_lt_iff_lt_mul hp).mpr hlt
            obtain ⟨m, hm⟩ :=
              Option.isSome_iff_exists.mp (mult_isSome (n / 10 ^ e) (by omega))
            have hi : mag n / 3 < groups.length := by
              simp only [groups, List.length]; omega
            rw [hm, List.getElem?_eq_getElem hi]
            by_cases hx : n - n / 10 ^ e * 10 ^ e = 0
            · simp [hx]
            · simp only [if_neg hx]
              have hxle : n - n / 10 ^ e * 10 ^ e ≤ n := Nat.sub_le _ _
              exact mapStr_ne_badIndex _ (ih _ (by omega))

/-- At `999999999999999` (in range, `Math.log10` exactly `15.0`) the
body recurses on the unchanged argument: whatever the stack budget, it
is exhausted — the run never completes. -/
theorem wordinalR_noFuel_loop :
    ∀ fuel, wordinalR fuel 999999999999999 = .noFuel := by
  intro fuel
  induction fuel with
  | zero => rfl
  | succ fuel ih =>
    rw [show wordinalR (fuel + 1) 999999999999999 =
        (wordinalR fuel 999999999999999).mapStr
          (fun r => "zero" ++ " " ++ "quadrillion" ++ (" " ++ r)) from rfl]
    rw [ih]
    rfl

theorem wordinal_error_out_of_range {n : Int}
    (h : n < 0 ∨ (MAX_SAFE_INTEGER : Int) < n) :
    wordinal n =
      .error ("Argument must be between 0 and " ++ toString MAX_SAFE_INTEGER) := by
  simp only [wordinal, if_pos h]

/-- The in-range input `999999999999999` overflows the call stack. -/
theorem wordinal_overflow :
    wordinal 999999999999999 = .error "Maximum call stack size exceeded" := by
  have hg : ¬ ((999999999999999 : Int) < 0 ∨
      (MAX_SAFE_INTEGER : Int) < 999999999999999) := by
    rw [show (MAX_SAFE_INTEGER : Int) = 9007199254740991 from rfl]
    omega
  simp only [wordinal, if_neg hg]
  rw [show (999999999999999 : Int).toNat = 999999999999999 from rfl,
    wordinalR_noFuel_loop]

/-! ### The digit-suffix formatter -/

theorem tmod_nonpos {a : Int} (b : Int) (h : a ≤ 0) : a.tmod b ≤ 0 := by
  cases a with
  | ofNat m =>
    rw [Int.ofNat_eq_natCast] at h
    have hm : m = 0 := by omega
    subst hm
    simp
  | negSucc m =>
    cases b with
    | ofNat k =>
      show -(Int.ofNat (m.succ % k)) ≤ 0
      exact neg_nonpos.mpr (Int.ofNat_nonneg _)
    | negSucc k =>
      show -(Int.ofNat (m.succ % k.succ)) ≤ 0
      exact neg_nonpos.mpr (Int.ofNat_nonneg _)

theorem jsIndex_suffixes_none {i : Int} (h0 : i ≠ 0) (h1 : i ≠ 1) (h2 : i ≠ 2)
    (h3 : i ≠ 3) : jsIndex suffixes i = none := by
  have hlen : suffixes.length = 4 := rfl
  simp only [jsIndex, hlen]
  rw [if_neg]
  omega

/-- The suffix rule of `digitOrdinal` as the specification words it:
with `v = n mod 100` (truncated remainder, as the implementation computes
it), use `st`/`nd`/`rd` when `(v - 20) mod 10` is 1, 2, or 3; else use
`st`/`nd`/`rd` when `v` itself is 1, 2, or 3; otherwise `th`.  This
definition follows the spec text and is compared with the implementation
in the theorems below. -/
def suffixSpec (v : Int) : String :=
  if (v - 20).tmod 10 = 1 then "st"
  else if (v - 20).tmod 10 = 2 then "nd"
  else if (v - 20).tmod 10 = 3 then "rd"
  else if v = 1 then "st"
  else if v = 2 then "nd"
  else if v = 3 then "rd"
  else "th"

theorem ordinal_eq_suffixSpec (n : Int) :
    ordinal n = toString n ++ suffixSpec (n.tmod 100) := by
  rw [show ordinal n = toString n ++
    ((jsIndex suffixes ((n.tmod 100 - 20).tmod 10)).getD
      ((jsIndex suffixes (n.tmod 100)).getD
        ((jsIndex suffixes 0).getD "undefined"))) from rfl]
  congr 1
  set v := n.tmod 100 with hv
  by_cases e1 : (v - 20).tmod 10 = 1
  · rw [e1, show jsIndex suffixes 1 = some "st" from rfl]
    simp [suffixSpec, e1]
  by_cases e2 : (v - 20).tmod 10 = 2
  · rw [e2, show jsIndex suffixes 2 = some "nd" from rfl]
    simp [suffixSpec, e1, e2]
  by_cases e3 : (v - 20).tmod 10 = 3
  · rw [e3, show jsIndex suffixes 3 = some "rd" from rfl]
    simp [suffixSpec, e1, e2, e3]
  by_cases e0 : (v - 20).tmod 10 = 0
  · rw [e0, show jsIndex suffixes 0 = some "th" from rfl]
    have hdvd : (10 : Int) ∣ (v - 20) := Int.dvd_of_tmod_eq_zero e0
    have f1 : v ≠ 1 := by omega
    have f2 : v ≠ 2 := by omega
    have f3 : v ≠ 3 := by omega
    simp [suffixSpec, e1, e2, e3, f1, f2, f3]
  · rw [jsIndex_suffixes_none e0 e1 e2 e3]
    simp only [Option.getD_none]
    by_cases f1 : v = 1
    · rw [f1]; decide
    by_cases f2 : v = 2
    · rw [f2]; decide
    by_cases f3 : v = 3
    · rw [f3]; decide
    by_cases f0 : v = 0
    · rw [f0]; decide
    · rw [jsIndex_suffixes_none f0 f1 f2 f3]
      simp [suffixSpec, e1, e2, e3, f1, f2, f3]
      decide

theorem dvd_tmod_100_iff {n : Int} :
    (10 : Int) ∣ n.tmod 100 ↔ (10 : Int) ∣ n := by
  have hd := Int.tmod_def n 100
  constructor <;> intro h <;> omega

/-! ### Claim theorems -/

/-- C3: for every integer `n`, `ordinal n` is the decimal text of `n`
followed by a suffix depending only on `n mod 100` (truncated remainder, as
the implementation computes it), chosen by the spec rule `suffixSpec`; in
particular `ordinal 11 = "11th"`, `ordinal 21 = "21st"`,
`ordinal 111 = "111th"`, `ordinal 121 = "121st"`, and the function is total
(never fails) for either sign of `n`. -/
theorem C3_digit_suffix_rule :
    (∀ n : Int, ordinal n = toString n ++ suffixSpec (n.tmod 100)) ∧
    ordinal 11 = "11th" ∧ ordinal 21 = "21st" ∧
    ordinal 111 = "111th" ∧ ordinal 121 = "121st" :=
  ⟨ordinal_eq_suffixSpec, by decide, by decide, by decide, by decide⟩

/-- C9: counterexample to the claimed mechanism — at `-10` the remainder
is `-10`, the first lookup index `(-10 - 20) % 10` is `-0`, i.e. array
index `0`, and the lookup hits the table's `th` entry instead of missing;
the output is still `-10th`. -/
theorem C9_lookup_hit_counterexample :
    ordinal (-10) = "-10th" ∧
    jsIndex suffixes (((-10 : Int).tmod 100 - 20).tmod 10) = some "th" :=
  ⟨by decide, by decide⟩

/-- C9 (amended): for every negative integer `n`, `ordinal n` is the
decimal text of `n` followed by `th` — the `st`/`nd`/`rd` branches are
never taken (e.g. `ordinal (-1) = "-1th"`, `ordinal (-21) = "-21th"`).
When `n` is not a multiple of 10 the non-positive remainder misses both
suffix-table lookups and the default `th` is used; when `n` is a
multiple of 10 the first lookup index `(v - 20) % 10` evaluates to `-0`,
i.e. index 0, and hits the table's `th` entry directly. -/
theorem C9_negative_always_th :
    (∀ n : Int, n < 0 → ordinal n = toString n ++ "th") ∧
    (∀ n : Int, n < 0 → ¬ (10 : Int) ∣ n →
      jsIndex suffixes ((n.tmod 100 - 20).tmod 10) = none ∧
      jsIndex suffixes (n.tmod 100) = none) ∧
    (∀ n : Int, n < 0 → (10 : Int) ∣ n →
      jsIndex suffixes ((n.tmod 100 - 20).tmod 10) = some "th") ∧
    ordinal (-1) = "-1th" ∧ ordinal (-21) = "-21th" := by
  refine ⟨fun n hn => ?_, fun n hn hdvd => ?_, fun n hn hdvd => ?_,
    by decide, by decide⟩
  · rw [ordinal_eq_suffixSpec n]
    congr 1
    have hv : n.tmod 100 ≤ 0 := tmod_nonpos 100 (by omega)
    have hj : (n.tmod 100 - 20).tmod 10 ≤ 0 := tmod_nonpos 10 (by omega)
    have e1 : ¬ (n.tmod 100 - 20).tmod 10 = 1 := by omega
    have e2 : ¬ (n.tmod 100 - 20).tmod 10 = 2 := by omega
    have e3 : ¬ (n.tmod 100 - 20).tmod 10 = 3 := by omega
    have f1 : ¬ n.tmod 100 = 1 := by omega
    have f2 : ¬ n.tmod 100 = 2 := by omega
    have f3 : ¬ n.tmod 100 = 3 := by omega
    simp [suffixSpec, e1, e2, e3, f1, f2, f3]
  · have hv : n.tmod 100 ≤ 0 := tmod_nonpos 100 (by omega)
    have hj : (n.tmod 100 - 20).tmod 10 ≤ 0 := tmod_nonpos 10 (by omega)
    have hnd : ¬ (10 : Int) ∣ n.tmod 100 := fun h =>
      hdvd (dvd_tmod_100_iff.mp h)
    have hvne : n.tmod 100 ≠ 0 := by
      intro h
      rw [h] at hnd
      exact hnd (dvd_zero 10)
    have hj0 : (n.tmod 100 - 20).tmod 10 ≠ 0 := by
      intro h
      have hd := Int.dvd_of_tmod_eq_zero h
      exact hnd (by omega)
    exact ⟨jsIndex_suffixes_none hj0 (by omega) (by omega) (by omega),
      jsIndex_suffixes_none hvne (by omega) (by omega) (by omega)⟩
  · have hdv : (10 : Int) ∣ n.tmod 100 := dvd_tmod_100_iff.mpr hdvd
    have hd20 : (10 : Int) ∣ (n.tmod 100 - 20) := by omega
    rw [Int.tmod_eq_zero_of_dvd hd20]
    rfl

/-- Witness for C9 at the concrete inputs `-5`, `-21` and `-10`. -/
theorem C9_negative_always_th_witness :
    ordinal (-5) = toString (-5 : Int) ++ "th" ∧
    jsIndex suffixes (((-21 : Int).tmod 100 - 20).tmod 10) = none ∧
    jsIndex suffixes (((-30 : Int).tmod 100 - 20).tmod 10) = some "th" :=
  ⟨C9_negative_always_th.1 (-5) (by decide),
   (C9_negative_always_th.2.1 (-21) (by decide) (by decide)).1,
   C9_negative_always_th.2.2.1 (-30) (by decide) (by decide)⟩

/-- C2: the range guard fires on every out-of-range input (in
particular every magnitude at or beyond `10^18`), but the totality half
of the claim fails on the code: `999999999999999` lies inside
`[0, 2^53 - 1]`, yet double `Math.log10` returns exactly `15.0` there,
the leading group divides to `0`, and the recursion repeats the same
argument until the call stack overflows — no complete string is ever
returned. -/
theorem C2_range_guard_and_in_range_overflow :
    (∀ n : Int, (n < 0 ∨ (MAX_SAFE_INTEGER : Int) < n) →
      ∃ e, wordinal n = .error e) ∧
    (∀ n : Int, (10 : Int) ^ 18 ≤ n → ∃ e, wordinal n = .error e) ∧
    ((0 : Int) ≤ 999999999999999 ∧
      (999999999999999 : Int) ≤ (MAX_SAFE_INTEGER : Int)) ∧
    wordinal 999999999999999 = .error "Maximum call stack size exceeded" := by
  refine ⟨fun n h => ⟨_, wordinal_error_out_of_range h⟩, fun n hn => ?_,
    ⟨by decide, ?_⟩, wordinal_overflow⟩
  · refine ⟨_, wordinal_error_out_of_range (Or.inr ?_)⟩
    have h18 : (10 : Int) ^ 18 = 1000000000000000000 := by norm_num
    rw [h18] at hn
    rw [show (MAX_SAFE_INTEGER : Int) = 9007199254740991 from rfl]
    omega
  · rw [show (MAX_SAFE_INTEGER : Int) = 9007199254740991 from rfl]
    decide

/-- Witness for C2 at the concrete inputs `-1` and `10^18`. -/
theorem C2_range_guard_witness :
    (∃ e, wordinal (-1) = .error e) ∧ (∃ e, wordinal (10 ^ 18) = .error e) :=
  ⟨C2_range_guard_and_in_range_overflow.1 (-1) (Or.inl (by decide)),
   C2_range_guard_and_in_range_overflow.2.1 (10 ^ 18) (by norm_num)⟩

/-- C8: no table lookup ever leaves its table: for every `n` up to
`Number.MAX_SAFE_INTEGER` and every stack budget, evaluation never
reports an out-of-range read — even where the recursion diverges, each
lookup actually performed (units 0–19, tens stems 0–7, groups 0–5) is in
domain; and the inner cardinal renderer `mult` completes on every
leading-group value. -/
theorem C8_no_lookup_out_of_range :
    (∀ n : Nat, n ≤ MAX_SAFE_INTEGER → ∀ fuel : Nat,
      wordinalR fuel n ≠ .badIndex) ∧
    (∀ num : Nat, num ≤ 999 → ∃ s, mult num = some s) :=
  ⟨fun n hn fuel => wordinalR_ne_badIndex fuel n hn,
   fun num h => Option.isSome_iff_exists.mp (mult_isSome num (by omega))⟩

/-- Witness for C8 at the concrete inputs `999999999999999` (a diverging
one) with stack budget `42`, and `999`. -/
theorem C8_no_lookup_out_of_range_witness :
    wordinalR 42 999999999999999 ≠ .badIndex ∧ (∃ s, mult 999 = some s) :=
  ⟨C8_no_lookup_out_of_range.1 999999999999999 (by rw [MAX_eq]; omega) 42,
   C8_no_lookup_out_of_range.2 999 (by omega)⟩

/-- C10: the claim that every self-recursive call strictly decreases is
refuted on the code at the in-range input `999999999999999`: the
recursive call receives the unchanged argument, and the run exhausts
every stack budget (`.noFuel` for all fuel) instead of terminating.  The
inner helper `mult`, by contrast, does recurse on strictly smaller
values: its result is stable under any sufficient fuel. -/
theorem C10_nontermination_bug :
    (∀ fuel : Nat, wordinalR fuel 999999999999999 = .noFuel) ∧
    (∀ num f1 f2 : Nat, num < f1 → num < f2 →
      multF f1 num = multF f2 num) :=
  ⟨wordinalR_noFuel_loop, multF_fuel_eq⟩

/-- Witness for C10 at stack budget `77` and at the concrete `mult`
argument `729` with two fuels. -/
theorem C10_nontermination_bug_witness :
    wordinalR 77 999999999999999 = .noFuel ∧ multF 730 729 = multF 2000 729 :=
  ⟨C10_nontermination_bug.1 77,
   C10_nontermination_bug.2 729 730 2000 (by omega) (by omega)⟩

/-- C5: multi-group compositions, including the maximum-bound case, and
the skipping of zero-valued intermediate groups (`32010002400` has no
"zero million" segment). -/
theorem C5_multi_group_composition :
    wordinal 1100 = .ok "one thousand one hundredth" ∧
    wordinal 2160000 = .ok "two million one hundred sixty thousandth" ∧
    wordinal 32010002400 =
      .ok "thirty-two billion ten million two thousand four hundredth" ∧
    wordinal 9007199254740991 =
      .ok ("nine quadrillion seven trillion one hundred ninety-nine billion "
        ++ "two hundred fifty-four million seven hundred forty thousand "
        ++ "nine hundred ninety-first") :=
  ⟨rfl, rfl, rfl, rfl⟩

/-- C1: evaluation at the failing input — the code renders the leading
group 500 of 500000 with an ordinal-suffixed `hundredth` (the inner `mult`
appends `th` when the leading group is an exact multiple of 100), not the
cardinal `five hundred` phrase the specification requires. -/
theorem C1_leading_group_ordinal_bug :
    wordinal 500000 = .ok "five hundredth thousandth" ∧
    "five hundredth thousandth" ≠ "five hundred thousandth" :=
  ⟨rfl, by decide⟩

/-- C4: the exact-multiple-of-a-group rule holds for the claim's own
examples, but fails when the leading group is itself a multiple of 100: at
`100000 = 100 * 1000` the code produces `one hundredth thousandth` instead
of the cardinal-led `one hundred thousandth`. -/
theorem C4_group_exactness_bug :
    wordinal 1000 = .ok "one thousandth" ∧
    wordinal 2000000 = .ok "two millionth" ∧
    wordinal 100000 = .ok "one hundredth thousandth" ∧
    "one hundredth thousandth" ≠ "one hundred thousandth" :=
  ⟨rfl, rfl, rfl, by decide⟩

/-- C7: below 20 the result is the ordinal-units table entry, and for
20–99 it is the tens stem of `n / 10` with `ieth` for multiples of ten and
`y-` plus the ordinal unit word otherwise. -/
theorem C7_units_and_tens :
    (∀ n : Nat, n < 20 → wordinal (n : Int) = .ok (ones.getD n "undefined")) ∧
    (∀ n : Nat, 20 ≤ n → n < 100 → wordinal (n : Int) =
      .ok (if n % 10 = 0 then tens.getD (n / 10 - 2) "undefined" ++ "ieth"
        else tens.getD (n / 10 - 2) "undefined" ++ "y-" ++
          ones.getD (n % 10) "undefined")) ∧
    wordinal 0 = .ok "zeroth" ∧ wordinal 13 = .ok "thirteenth" ∧
    wordinal 20 = .ok "twentieth" ∧ wordinal 21 = .ok "twenty-first" := by
  refine ⟨fun n hn => ?_, fun n h1 h2 => ?_, rfl, rfl, rfl, rfl⟩
  · interval_cases n <;> rfl
  · interval_cases n <;> rfl

/-- Witness for C7 at the concrete inputs `13` and `21`. -/
theorem C7_units_and_tens_witness :
    wordinal ((13 : Nat) : Int) = .ok (ones.getD 13 "undefined") ∧
    wordinal ((21 : Nat) : Int) =
      .ok (if 21 % 10 = 0 then tens.getD (21 / 10 - 2) "undefined" ++ "ieth"
        else tens.getD (21 / 10 - 2) "undefined" ++ "y-" ++
          ones.getD (21 % 10) "undefined") :=
  ⟨C7_units_and_tens.1 13 (by decide),
   C7_units_and_tens.2.1 21 (by decide) (by decide)⟩

/-- C6: for 100–999 with `f = n / 100` and remainder `r = n - f * 100`,
the result is the cardinal word for `f`, a space, `hundred`, then `th`
when `r = 0` and otherwise a space and the ordinal rendering of `r`;
e.g. `wordinal 100 = "one hundredth"`, `wordinal 102 = "one hundred
second"`.  Proved by exhausting the full domain. -/
theorem C6_hundreds_case :
    (∀ n : Nat, 100 ≤ n → n ≤ 999 →
      ∃ s, wordinal ((n - n / 100 * 100 : Nat) : Int) = .ok s ∧
        wordinal (n : Int) = .ok (nums.getD (n / 100) "undefined" ++ " " ++
          "hundred" ++ (if n - n / 100 * 100 = 0 then "th" else " " ++ s))) ∧
    wordinal 100 = .ok "one hundredth" ∧
    wordinal 102 = .ok "one hundred second" := by
  refine ⟨fun n h1 h2 => ?_, rfl, rfl⟩
  interval_cases n <;> exact ⟨_, rfl, rfl⟩

/-- Witness for C6 at the concrete input `102`. -/
theorem C6_hundreds_case_witness :
    ∃ s, wordinal ((102 - 102 / 100 * 100 : Nat) : Int) = .ok s ∧
      wordinal ((102 : Nat) : Int) =
        .ok (nums.getD (102 / 100) "undefined" ++ " " ++ "hundred" ++
          (if 102 - 102 / 100 * 100 = 0 then "th" else " " ++ s)) :=
  C6_hundreds_case.1 102 (by decide) (by decide)
